import Mathlib

/-!
Verification of the guardrails LangChain adapter: a shallow embedding of the
interception layer (`withGuardrails`), the streaming batcher, and the
validation client (`validateWithGuardrails` plus its Zod response schema),
with theorems settling the specification claims.

Messages, model inputs and streamed fragments are modelled as strings (their
content); the external policy-evaluation service is modelled as a function
from requests to parsed `GuardrailsResponse` values, and the underlying chat
model as functions supplied by the environment.
-/

/-- Default chunk batch size (source: DEFAULT_CHUNK_BATCH_SIZE = 200). -/
def DEFAULT_CHUNK_BATCH_SIZE : Nat := 200

/-- Default base URL (source: DEFAULT_BASE_URL). -/
def DEFAULT_BASE_URL : String := "https://gr-prd.aporia.com"

/-- Fixed override used when a prompt check blocks without a usable revision
(source: PROMPT_OVERRIDE). -/
def PROMPT_OVERRIDE : String := "[Prompt intercepted: custom response]"

/-- Fixed override used when a response check blocks without a usable revision
(source: RESPONSE_OVERRIDE). -/
def RESPONSE_OVERRIDE : String := "[Response intercepted: custom override]"

/-- Fixed apology substituted when the underlying model raises a
content-filter rejection (source: the AIMessage built in the catch branch of
the intercepted invoke). -/
def CONTENT_FILTER_APOLOGY : String :=
  "I\x27m sorry, but I can\x27t assist with that request."

/-- The four recognized guardrail actions (source: the Zod enum in
GuardrailsResponseSchema). -/
inductive GAction : Type where
  | modify
  | passthrough
  | block
  | rephrase
deriving DecidableEq, Repr

/-- Parsed validation-service reply: only `action` and `revised_response` are
contractually meaningful (source: GuardrailsResponse). `none` models a JSON
null revision. -/
structure GuardrailsResponse : Type where
  action : GAction
  revised_response : Option String
deriving DecidableEq, Repr

/-- `shouldBlock` as computed by both createPromptCondition and
createResponseCondition: action is block, modify or rephrase. -/
def shouldBlockOf (r : GuardrailsResponse) : Bool :=
  match r.action with
  | .block => true
  | .modify => true
  | .rephrase => true
  | .passthrough => false

/-- Result of a prompt/response condition (source: the
`{ shouldBlock, overrideResponse }` object returned by the conditions). -/
structure CheckResult : Type where
  shouldBlock : Bool
  overrideResponse : Option String
deriving DecidableEq, Repr

/-- Builds the condition result from a parsed service reply, as both
createPromptCondition and createResponseCondition do:
`overrideResponse = response.revised_response ?? undefined`. -/
def conditionOf (r : GuardrailsResponse) : CheckResult :=
  ⟨shouldBlockOf r, r.revised_response⟩

/-- JavaScript `x || d` for an optional string `x`: the default is taken when
`x` is absent or the empty string (both are falsy). This is the exact
semantics of `overrideResponse || PROMPT_OVERRIDE` and
`overrideResponse || RESPONSE_OVERRIDE` in the source. -/
def jsOr (o : Option String) (d : String) : String :=
  match o with
  | some s => if s = "" then d else s
  | none => d

/-- An error thrown by the underlying model; `code` models the `e.code`
property inspected by the intercepted invoke. -/
structure ModelError : Type where
  code : Option String
  message : String
deriving DecidableEq, Repr

/-- Outcome of the underlying model's single-turn call: a successful
AIMessage content or a thrown error. -/
inductive InvokeOutcome : Type where
  | ok (content : String)
  | err (e : ModelError)
deriving DecidableEq, Repr

/-- The guarded single-turn call (source: the intercepted `invoke`).
`promptResp` is the service reply for the prompt check on the extracted
messages; `respResp content` is the service reply for the response check on
`content`; `model` is the underlying model's invoke. Returns the call's
result together with the list of inputs the underlying model was invoked
with (for counting underlying invocations). -/
def guardedInvoke (promptResp : GuardrailsResponse)
    (respResp : String → GuardrailsResponse)
    (model : String → InvokeOutcome) (input : String) :
    Except ModelError String × List String :=
  if (conditionOf promptResp).shouldBlock then
    -- return new AIMessage(promptCheck.overrideResponse || PROMPT_OVERRIDE)
    (.ok (jsOr (conditionOf promptResp).overrideResponse PROMPT_OVERRIDE), [])
  else
    match model input with
    | .ok content =>
      if (conditionOf (respResp content)).shouldBlock then
        (.ok (jsOr (conditionOf (respResp content)).overrideResponse RESPONSE_OVERRIDE),
         [input])
      else
        (.ok content, [input])
    | .err e =>
      if e.code = some "content_filter" then
        (.ok CONTENT_FILTER_APOLOGY, [input])
      else
        (.error e, [input])

/-- Observable outcome of the streaming loop over the underlying fragments
(source: the for-await loop plus the final tail check in the intercepted
`stream`). `emitted` are the yielded chunk contents in order, `checkInputs`
the accumulated texts submitted to response checks in order, `consumed` the
number of fragments pulled from the underlying stream, and `tailChecked`
whether the final tail check ran. -/
structure StreamStats : Type where
  emitted : List String
  checkInputs : List String
  consumed : Nat
  tailChecked : Bool
deriving DecidableEq, Repr

/-- The streaming loop of the intercepted `stream`: `count` is
`chunkCount`, `acc` is `accumulatedContent`; `count ≠ 0` models
`lastChunk !== null`. Each fragment increments the counter and is appended to
the accumulator; at counts that are multiples of `B` a response check runs on
the whole accumulated text, and a blocking check yields one override chunk
and breaks; otherwise the original fragment is yielded. After exhaustion, a
tail check runs when at least one fragment was seen and the final count is
not a multiple of `B`. -/
def streamLoop (B : Nat) (rc : String → CheckResult) :
    List String → Nat → String → StreamStats
  | [], count, acc =>
    if ¬count = 0 ∧ ¬count % B = 0 then
      if (rc acc).shouldBlock then
        ⟨[jsOr (rc acc).overrideResponse RESPONSE_OVERRIDE], [acc], 0, true⟩
      else
        ⟨[], [acc], 0, true⟩
    else
      ⟨[], [], 0, false⟩
  | chunk :: rest, count, acc =>
    if (count + 1) % B = 0 then
      if (rc (acc ++ chunk)).shouldBlock then
        ⟨[jsOr (rc (acc ++ chunk)).overrideResponse RESPONSE_OVERRIDE],
         [acc ++ chunk], 1, false⟩
      else
        ⟨chunk :: (streamLoop B rc rest (count + 1) (acc ++ chunk)).emitted,
         (acc ++ chunk) :: (streamLoop B rc rest (count + 1) (acc ++ chunk)).checkInputs,
         (streamLoop B rc rest (count + 1) (acc ++ chunk)).consumed + 1,
         (streamLoop B rc rest (count + 1) (acc ++ chunk)).tailChecked⟩
    else
      ⟨chunk :: (streamLoop B rc rest (count + 1) (acc ++ chunk)).emitted,
       (streamLoop B rc rest (count + 1) (acc ++ chunk)).checkInputs,
       (streamLoop B rc rest (count + 1) (acc ++ chunk)).consumed + 1,
       (streamLoop B rc rest (count + 1) (acc ++ chunk)).tailChecked⟩

/-- Observable outcome of a full guarded streaming call; `opened` records
whether the underlying stream operation was invoked at all. -/
structure StreamRun : Type where
  emitted : List String
  checkInputs : List String
  consumed : Nat
  tailChecked : Bool
  opened : Bool
deriving DecidableEq, Repr

/-- The guarded streaming call (source: the intercepted `stream`): a blocking
prompt check yields a single synthetic chunk and ends the sequence without
opening the underlying stream; otherwise the underlying stream is opened and
driven by `streamLoop` starting from count 0 and an empty accumulator. -/
def guardedStream (B : Nat) (promptResp : GuardrailsResponse)
    (respResp : String → GuardrailsResponse) (frags : List String) : StreamRun :=
  if (conditionOf promptResp).shouldBlock then
    ⟨[jsOr (conditionOf promptResp).overrideResponse PROMPT_OVERRIDE], [], 0, false, false⟩
  else
    ⟨(streamLoop B (fun s => conditionOf (respResp s)) frags 0 "").emitted,
     (streamLoop B (fun s => conditionOf (respResp s)) frags 0 "").checkInputs,
     (streamLoop B (fun s => conditionOf (respResp s)) frags 0 "").consumed,
     (streamLoop B (fun s => conditionOf (respResp s)) frags 0 "").tailChecked,
     true⟩

/-- Concatenation of fragment contents, as the streaming accumulator builds
it. -/
def sconcat : List String → String
  | [] => ""
  | s :: rest => s ++ sconcat rest

@[simp] theorem sconcat_nil : sconcat [] = "" := rfl

@[simp] theorem sconcat_cons (s : String) (l : List String) :
    sconcat (s :: l) = s ++ sconcat l := rfl

/-- Wrap-time configuration (source: AporiaGuardrailsConfig). -/
structure AporiaGuardrailsConfig : Type where
  projectId : String
  apiKey : String
  chunkBatchSize : Option Nat
  baseUrl : Option String
deriving DecidableEq, Repr

/-- Validation target tag (source: the `"prompt" | "response"` parameter of
validateWithGuardrails). -/
inductive VTarget : Type where
  | prompt
  | response
deriving DecidableEq, Repr

/-- A request to the policy-evaluation service, as assembled by
validateWithGuardrails from the wrap configuration and the call data. The
`input` field stands for the extracted prompt messages. -/
structure SReq : Type where
  projectId : String
  apiKey : String
  baseUrl : String
  input : String
  response : String
  target : VTarget
deriving DecidableEq, Repr

/-- The wrapped chat model collaborator: single-turn call, streaming call,
tool binding and reconfiguration (the four operations intercepted by
withGuardrails). -/
inductive ChatModel : Type where
  | mk (invokeF : String → InvokeOutcome)
       (streamF : String → List String)
       (bindToolsF : List String → ChatModel)
       (withConfigF : String → ChatModel)

/-- Underlying single-turn call of a model. -/
def ChatModel.invokeF : ChatModel → String → InvokeOutcome
  | .mk f _ _ _ => f

/-- Underlying streaming call of a model. -/
def ChatModel.streamF : ChatModel → String → List String
  | .mk _ f _ _ => f

/-- Underlying tool-binding operation of a model. -/
def ChatModel.bindToolsF : ChatModel → List String → ChatModel
  | .mk _ _ f _ => f

/-- Underlying reconfiguration operation of a model. -/
def ChatModel.withConfigF : ChatModel → String → ChatModel
  | .mk _ _ _ f => f

/-- Observable surface of a guarded model: the intercepted invoke (with its
underlying-call trace), the intercepted stream run, and the two re-wrapping
factory operations. -/
inductive GuardedSurface : Type where
  | mk (invokeG : String → Except ModelError String × List String)
       (streamG : String → StreamRun)
       (bindToolsG : List String → GuardedSurface)
       (withConfigG : String → GuardedSurface)

/-- Intercepted single-turn call of a guarded model. -/
def GuardedSurface.invokeG : GuardedSurface → String → Except ModelError String × List String
  | .mk f _ _ _ => f

/-- Intercepted streaming call of a guarded model. -/
def GuardedSurface.streamG : GuardedSurface → String → StreamRun
  | .mk _ f _ _ => f

/-- Intercepted tool-binding of a guarded model. -/
def GuardedSurface.bindToolsG : GuardedSurface → List String → GuardedSurface
  | .mk _ _ f _ => f

/-- Intercepted reconfiguration of a guarded model. -/
def GuardedSurface.withConfigG : GuardedSurface → String → GuardedSurface
  | .mk _ _ _ f => f

/-- The interception construction (source: withGuardrails). Destructures the
configuration with defaults, derives the prompt and response conditions from
the service, and intercepts the four operations: invoke and stream run the
guarded call paths; bindTools and withConfig call the original operation and
re-wrap the resulting model with the resolved configuration. -/
def withGuardrails (service : SReq → GuardrailsResponse) :
    AporiaGuardrailsConfig → ChatModel → GuardedSurface
  | cfg, .mk inv str bt wc =>
    .mk
      (fun input =>
        guardedInvoke
          (service ⟨cfg.projectId, cfg.apiKey, cfg.baseUrl.getD DEFAULT_BASE_URL,
                    input, "", .prompt⟩)
          (fun s => service ⟨cfg.projectId, cfg.apiKey, cfg.baseUrl.getD DEFAULT_BASE_URL,
                             input, s, .response⟩)
          inv input)
      (fun input =>
        guardedStream (cfg.chunkBatchSize.getD DEFAULT_CHUNK_BATCH_SIZE)
          (service ⟨cfg.projectId, cfg.apiKey, cfg.baseUrl.getD DEFAULT_BASE_URL,
                    input, "", .prompt⟩)
          (fun s => service ⟨cfg.projectId, cfg.apiKey, cfg.baseUrl.getD DEFAULT_BASE_URL,
                             input, s, .response⟩)
          (str input))
      (fun args =>
        withGuardrails service
          ⟨cfg.projectId, cfg.apiKey, some (cfg.chunkBatchSize.getD DEFAULT_CHUNK_BATCH_SIZE),
           some (cfg.baseUrl.getD DEFAULT_BASE_URL)⟩
          (bt args))
      (fun c =>
        withGuardrails service
          ⟨cfg.projectId, cfg.apiKey, some (cfg.chunkBatchSize.getD DEFAULT_CHUNK_BATCH_SIZE),
           some (cfg.baseUrl.getD DEFAULT_BASE_URL)⟩
          (wc c))

/-- JSON values, as delivered by the validation endpoint's body. -/
inductive Json : Type where
  | null
  | bool (b : Bool)
  | num (n : Int)
  | str (s : String)
  | arr (elems : List Json)
  | obj (fields : List (String × Json))

/-- Field lookup in a JSON value: the first binding of the key in an object,
absent otherwise. -/
def jFieldOf (j : Json) (k : String) : Option Json :=
  match j with
  | .obj fields => List.lookup k fields
  | _ => none

/-- Parse of the `action` field by the Zod enum
`z.enum(["modify", "passthrough", "block", "rephrase"])`: the field must be
present and be one of the four literal strings. -/
def parseActionField : Option Json → Option GAction
  | some (.str s) =>
    if s = "modify" then some .modify
    else if s = "passthrough" then some .passthrough
    else if s = "block" then some .block
    else if s = "rephrase" then some .rephrase
    else none
  | _ => none

/-- Parse of the `revised_response` field by `z.string().nullable()`: the
field must be present and be a string or JSON null (an absent field is a
schema failure; `undefined` is neither a string nor null). -/
def parseRevisedField : Option Json → Option (Option String)
  | some (.str s) => some (some s)
  | some .null => some none
  | _ => none

/-- A Zod schema failure. -/
inductive SchemaIssue : Type where
  | invalidShape
deriving DecidableEq, Repr

/-- `GuardrailsResponseSchema.parse` (source: the `z.looseObject` with the
action enum and nullable revised_response): the body must be an object whose
`action` and `revised_response` fields parse; all other fields are ignored. -/
def GuardrailsResponseSchema_parse (body : Json) : Except SchemaIssue GuardrailsResponse :=
  match body with
  | .obj fields =>
    match parseActionField (List.lookup "action" fields),
          parseRevisedField (List.lookup "revised_response" fields) with
    | some a, some r => .ok ⟨a, r⟩
    | _, _ => .error .invalidShape
  | _ => .error .invalidShape

/-- An HTTP reply from the validation endpoint, as seen through `fetch`:
`ok` is `res.ok`, and `body` the decoded JSON body. -/
structure HttpReply : Type where
  ok : Bool
  status : Nat
  statusText : String
  body : Json

/-- Failure modes of the validate operation: a transport error carrying the
status code and status text (the thrown
`Guardrails validation failed: status statusText`), or a schema failure from
parsing the body. -/
inductive ValidationError : Type where
  | transport (status : Nat) (statusText : String)
  | schema (issue : SchemaIssue)
deriving DecidableEq, Repr

/-- The validate operation on the reply the endpoint produced (source:
validateWithGuardrails): a non-success status throws the transport error;
otherwise the JSON body is parsed against the schema. -/
def validateWithGuardrails (reply : HttpReply) : Except ValidationError GuardrailsResponse :=
  if reply.ok = false then
    .error (.transport reply.status reply.statusText)
  else
    match GuardrailsResponseSchema_parse reply.body with
    | .ok g => .ok g
    | .error e => .error (.schema e)

/-- The validate operation with its fetch trace made explicit: `replies n`
is the reply the endpoint would give to the n-th request, and the second
component counts the fetches performed. The source performs a single fetch
and never loops or retries, so exactly one reply is consumed. -/
def validateWithGuardrailsCounted (replies : Nat → HttpReply) (calls : Nat) :
    Except ValidationError GuardrailsResponse × Nat :=
  (validateWithGuardrails (replies calls), calls + 1)

/-- Predicate in the words of the specification claim about the response
schema: the action field is present and is one of the four recognized
values. -/
def actionRecognized : Option Json → Bool
  | some (.str s) =>
    if s = "modify" then true
    else if s = "passthrough" then true
    else if s = "block" then true
    else if s = "rephrase" then true
    else false
  | _ => false

/-- Predicate in the words of the amended claim: the revised_response field
is present and is a string or JSON null. -/
def revisedStringOrNull : Option Json → Bool
  | some (.str _) => true
  | some .null => true
  | _ => false

/-- Predicate in the words of the original claim: the revised_response field
is a string or absent. -/
def revisedStringOrAbsent : Option Json → Bool
  | none => true
  | some (.str _) => true
  | _ => false

theorem streamLoop_noblock (B : Nat) (rc : String → CheckResult)
    (hnb : ∀ s, (rc s).shouldBlock = false) :
    ∀ (frags : List String) (count : Nat) (acc : String),
    streamLoop B rc frags count acc =
      ⟨frags,
       ((List.range frags.length).filterMap
         (fun i => if (count + i + 1) % B = 0 then
            some (acc ++ sconcat (frags.take (i + 1))) else none))
       ++ (if ¬(count + frags.length) = 0 ∧ ¬(count + frags.length) % B = 0 then
            [acc ++ sconcat frags] else []),
       frags.length,
       if ¬(count + frags.length) = 0 ∧ ¬(count + frags.length) % B = 0 then true
       else false⟩ := by
  intro frags
  induction frags with
  | nil =>
    intro count acc
    simp only [streamLoop, hnb, List.length_nil, List.range_zero, List.filterMap_nil,
      List.nil_append, Nat.add_zero, sconcat_nil, String.append_empty, Bool.false_eq_true,
      if_false]
    split
    · rfl
    · rfl
  | cons c rest ih =>
    intro count acc
    have hfe : ((fun i => if (count + i + 1) % B = 0 then
          some (acc ++ (c ++ sconcat (List.take i rest))) else none) ∘ Nat.succ)
        = (fun i => if (count + 1 + i + 1) % B = 0 then
          some (acc ++ (c ++ sconcat (List.take (i + 1) rest))) else none) := by
      funext i
      simp only [Function.comp_apply, Nat.succ_eq_add_one]
      have h1 : count + (i + 1) + 1 = count + 1 + i + 1 := by omega
      simp only [h1]
    have h2 : count + (rest.length + 1) = count + 1 + rest.length := by omega
    by_cases hb : (count + 1) % B = 0
    · simp only [streamLoop, if_pos hb, hnb, Bool.false_eq_true, if_false, ih,
        List.length_cons, List.range_succ_eq_map, List.filterMap_cons, Nat.add_zero,
        List.take_succ_cons, List.take_zero, sconcat_cons, sconcat_nil,
        String.append_empty, List.filterMap_map, String.append_assoc, List.cons_append]
      simp only [h2, hfe]
    · simp only [streamLoop, if_neg hb, ih, List.length_cons, List.range_succ_eq_map,
        List.filterMap_cons, Nat.add_zero, List.take_succ_cons, sconcat_cons,
        List.filterMap_map, String.append_assoc, List.cons_append]
      simp only [h2, hfe, if_neg hb]

theorem acc_take_shift (acc c : String) (rest : List String) (m : Nat) (hm : 0 < m) :
    acc ++ sconcat ((c :: rest).take m) = (acc ++ c) ++ sconcat (rest.take (m - 1)) := by
  cases m with
  | zero => exact absurd hm (by omega)
  | succ k => simp [List.take_succ_cons, String.append_assoc]

theorem streamLoop_blockAt (B : Nat) (rc : String → CheckResult) (K : Nat) :
    ∀ (frags : List String) (count : Nat) (acc : String),
    count < K → K ≤ count + frags.length → K % B = 0 →
    (∀ n, count < n → n < K → n % B = 0 →
      (rc (acc ++ sconcat (frags.take (n - count)))).shouldBlock = false) →
    (rc (acc ++ sconcat (frags.take (K - count)))).shouldBlock = true →
    (streamLoop B rc frags count acc).emitted
        = frags.take (K - count - 1)
          ++ [jsOr (rc (acc ++ sconcat (frags.take (K - count)))).overrideResponse
                RESPONSE_OVERRIDE]
    ∧ (streamLoop B rc frags count acc).consumed = K - count
    ∧ (streamLoop B rc frags count acc).tailChecked = false := by
  intro frags
  induction frags with
  | nil =>
    intro count acc h1 h2 _ _ _
    simp only [List.length_nil, Nat.add_zero] at h2
    exact absurd h1 (by omega)
  | cons c rest ih =>
    intro count acc hlt hle hKB hpass hblock
    have hlen : (c :: rest).length = rest.length + 1 := rfl
    by_cases hb : (count + 1) % B = 0
    · by_cases hK : count + 1 = K
      · -- the check at this very boundary blocks
        have hKc : K - count = 1 := by omega
        rw [hKc] at hblock
        rw [acc_take_shift acc c rest 1 (by omega)] at hblock
        simp only [Nat.sub_self, List.take_zero, sconcat_nil, String.append_empty] at hblock
        simp only [streamLoop, if_pos hb, hblock, if_pos rfl, hKc,
          acc_take_shift acc c rest 1 (by omega), Nat.sub_self, List.take_zero,
          sconcat_nil, String.append_empty]
        refine ⟨rfl, rfl, rfl⟩
      · -- a passing boundary; recurse
        have hlt' : count + 1 < K := by omega
        have hstep : (rc (acc ++ c)).shouldBlock = false := by
          have h := hpass (count + 1) (by omega) hlt' hb
          rw [acc_take_shift acc c rest (count + 1 - count) (by omega)] at h
          simpa using h
        have hle' : K ≤ count + 1 + rest.length := by omega
        have hpass' : ∀ n, count + 1 < n → n < K → n % B = 0 →
            (rc ((acc ++ c) ++ sconcat (rest.take (n - (count + 1))))).shouldBlock = false := by
          intro n hn1 hn2 hn3
          have h := hpass n (by omega) hn2 hn3
          rw [acc_take_shift acc c rest (n - count) (by omega)] at h
          have : n - count - 1 = n - (count + 1) := by omega
          rwa [this] at h
        have hblock' :
            (rc ((acc ++ c) ++ sconcat (rest.take (K - (count + 1))))).shouldBlock = true := by
          have h := hblock
          rw [acc_take_shift acc c rest (K - count) (by omega)] at h
          have : K - count - 1 = K - (count + 1) := by omega
          rwa [this] at h
        obtain ⟨ihe, ihc, iht⟩ := ih (count + 1) (acc ++ c) hlt' hle' hKB hpass' hblock'
        refine ⟨?_, ?_, ?_⟩
        · simp only [streamLoop, if_pos hb, hstep, Bool.false_eq_true, if_false, ihe]
          have hKc : K - count - 1 = (K - (count + 1) - 1) + 1 := by omega
          rw [hKc, List.take_succ_cons, List.cons_append]
          congr 2
          rw [acc_take_shift acc c rest (K - count) (by omega)]
          have : K - count - 1 = K - (count + 1) := by omega
          rw [this]
        · simp only [streamLoop, if_pos hb, hstep, Bool.false_eq_true, if_false, ihc]
          omega
        · simp only [streamLoop, if_pos hb, hstep, Bool.false_eq_true, if_false, iht]
    · -- not a boundary; recurse
      have hne : count + 1 ≠ K := fun h => hb (h ▸ hKB)
      have hlt' : count + 1 < K := by omega
      have hle' : K ≤ count + 1 + rest.length := by omega
      have hpass' : ∀ n, count + 1 < n → n < K → n % B = 0 →
          (rc ((acc ++ c) ++ sconcat (rest.take (n - (count + 1))))).shouldBlock = false := by
        intro n hn1 hn2 hn3
        have h := hpass n (by omega) hn2 hn3
        rw [acc_take_shift acc c rest (n - count) (by omega)] at h
        have : n - count - 1 = n - (count + 1) := by omega
        rwa [this] at h
      have hblock' :
          (rc ((acc ++ c) ++ sconcat (rest.take (K - (count + 1))))).shouldBlock = true := by
        have h := hblock
        rw [acc_take_shift acc c rest (K - count) (by omega)] at h
        have : K - count - 1 = K - (count + 1) := by omega
        rwa [this] at h
      obtain ⟨ihe, ihc, iht⟩ := ih (count + 1) (acc ++ c) hlt' hle' hKB hpass' hblock'
      refine ⟨?_, ?_, ?_⟩
      · simp only [streamLoop, if_neg hb, ihe]
        have hKc : K - count - 1 = (K - (count + 1) - 1) + 1 := by omega
        rw [hKc, List.take_succ_cons, List.cons_append]
        congr 2
        rw [acc_take_shift acc c rest (K - count) (by omega)]
        have : K - count - 1 = K - (count + 1) := by omega
        rw [this]
      · simp only [streamLoop, if_neg hb, ihc]
        omega
      · simp only [streamLoop, if_neg hb, iht]

theorem boundary_filterMap_eq_map {α : Type} (B : Nat) (f : Nat → α) :
    ∀ n, ((List.range n).filterMap
        (fun i => if (i + 1) % B = 0 then some (f (i + 1)) else none))
      = (List.range (n / B)).map (fun k => f ((k + 1) * B)) := by
  intro n
  induction n with
  | zero => simp
  | succ m ih =>
    rw [List.range_succ, List.filterMap_append, ih, Nat.succ_div]
    by_cases hd : B ∣ m + 1
    · have hB : 0 < B := by
        rcases Nat.eq_zero_or_pos B with h0 | h
        · subst h0
          have := Nat.zero_dvd.mp hd
          omega
        · exact h
      have hmod : (m + 1) % B = 0 := Nat.dvd_iff_mod_eq_zero.mp hd
      have hdiv : (m + 1) / B = m / B + 1 := by rw [Nat.succ_div, if_pos hd]
      have hmul : (m / B + 1) * B = m + 1 := by
        have h1 := Nat.div_mul_cancel hd
        have h2 : (m + 1) / B * B = (m / B + 1) * B := by rw [hdiv]
        omega
      simp [hmod, hd, List.range_succ, hmul, List.filterMap_cons]
    · have hB0 : ¬(m + 1) % B = 0 ∨ B = 0 := by
        rcases Nat.eq_zero_or_pos B with h0 | h
        · exact Or.inr h0
        · exact Or.inl (fun hc => hd (Nat.dvd_iff_mod_eq_zero.mpr hc))
      rcases hB0 with hmod | h0
      · simp [hmod, hd]
      · subst h0
        have hmod : ¬(m + 1) % 0 = 0 := by omega
        simp [hmod, hd]

theorem checks_count_ceil (B F : Nat) (hB : 0 < B) :
    F / B + (if ¬F = 0 ∧ ¬F % B = 0 then 1 else 0) = (F + B - 1) / B := by
  rcases Nat.eq_zero_or_pos F with hF | hF
  · subst hF
    simp [Nat.div_eq_of_lt (by omega : B - 1 < B)]
  · have hqr := Nat.div_add_mod F B
    have hne : ¬F = 0 := by omega
    by_cases hr : F % B = 0
    · have hFB : F + B - 1 = (B - 1) + B * (F / B) := by omega
      rw [hFB, Nat.add_mul_div_left _ _ hB, Nat.div_eq_of_lt (by omega : B - 1 < B)]
      simp [hr]
    · have hc : B * (F / B + 1) = B * (F / B) + B := by ring
      have hFB : F + B - 1 = (F % B - 1) + B * (F / B + 1) := by omega
      have hlt : F % B - 1 < B := by
        have := Nat.mod_lt F hB
        omega
      rw [hFB, Nat.add_mul_div_left _ _ hB, Nat.div_eq_of_lt hlt]
      simp [hr, hne]

/-- Claim C1 fails as stated: when a blocking prompt check supplies an empty
revised text, the guarded single-turn call and the guarded stream substitute
the fixed default prompt-override string, not the (empty) revised text the
check supplied. -/
theorem C1_counterexample :
    (guardedInvoke ⟨GAction.block, some ""⟩ (fun _ => ⟨GAction.passthrough, none⟩)
        (fun _ => InvokeOutcome.ok "X") "input").1 = Except.ok PROMPT_OVERRIDE
    ∧ (guardedStream 2 ⟨GAction.block, some ""⟩ (fun _ => ⟨GAction.passthrough, none⟩)
        ["a"]).emitted = [PROMPT_OVERRIDE]
    ∧ ¬PROMPT_OVERRIDE = "" := by
  refine ⟨rfl, rfl, by decide⟩

/-- Claim C1 (amended): for every prompt check whose action is block, modify
or rephrase, neither the guarded single-turn call nor the guarded streaming
call invokes the underlying model operation; the single-turn call returns one
assistant message and the stream yields exactly one synthetic chunk and ends,
whose content is the check's revised text when that text is a non-empty
string, and the fixed default prompt-override string when the revised text is
absent or empty. -/
theorem C1_prompt_block_shortcircuit (pr : GuardrailsResponse)
    (respResp : String → GuardrailsResponse) (model : String → InvokeOutcome)
    (input : String) (B : Nat) (frags : List String)
    (hact : pr.action = GAction.block ∨ pr.action = GAction.modify ∨
      pr.action = GAction.rephrase) :
    (guardedInvoke pr respResp model input).2 = []
    ∧ (guardedStream B pr respResp frags).opened = false
    ∧ (guardedStream B pr respResp frags).consumed = 0
    ∧ ∃ c, (guardedInvoke pr respResp model input).1 = Except.ok c
        ∧ (guardedStream B pr respResp frags).emitted = [c]
        ∧ (∀ s, pr.revised_response = some s → ¬s = "" → c = s)
        ∧ ((pr.revised_response = none ∨ pr.revised_response = some "") →
            c = PROMPT_OVERRIDE) := by
  have hsb : shouldBlockOf pr = true := by
    rcases hact with h | h | h <;> simp [shouldBlockOf, h]
  refine ⟨?_, ?_, ?_, jsOr pr.revised_response PROMPT_OVERRIDE, ?_, ?_, ?_, ?_⟩
  · simp [guardedInvoke, conditionOf, hsb]
  · simp [guardedStream, conditionOf, hsb]
  · simp [guardedStream, conditionOf, hsb]
  · simp [guardedInvoke, conditionOf, hsb]
  · simp [guardedStream, conditionOf, hsb]
  · intro s hs hne
    simp [jsOr, hs, hne]
  · intro h
    rcases h with h | h <;> simp [jsOr, h]

theorem C1_witness :
    (guardedInvoke ⟨GAction.rephrase, some "safe"⟩ (fun _ => ⟨GAction.passthrough, none⟩)
        (fun _ => InvokeOutcome.ok "X") "q").2 = []
    ∧ (guardedStream 3 ⟨GAction.rephrase, some "safe"⟩
        (fun _ => ⟨GAction.passthrough, none⟩) ["a", "b"]).opened = false := by
  have h := C1_prompt_block_shortcircuit ⟨GAction.rephrase, some "safe"⟩
    (fun _ => ⟨GAction.passthrough, none⟩) (fun _ => InvokeOutcome.ok "X") "q" 3 ["a", "b"]
    (Or.inr (Or.inr rfl))
  exact ⟨h.1, h.2.1⟩

/-- Claim C4: for every single-turn call whose prompt check returns
passthrough, the underlying model operation is invoked exactly once with the
original input; and when that call succeeds with content X and the response
check also returns passthrough, the guarded call returns X unchanged. -/
theorem C4_passthrough_invoke (pr : GuardrailsResponse)
    (respResp : String → GuardrailsResponse) (model : String → InvokeOutcome)
    (input : String) (hpr : pr.action = GAction.passthrough) :
    (guardedInvoke pr respResp model input).2 = [input]
    ∧ (∀ X, model input = InvokeOutcome.ok X →
        (respResp X).action = GAction.passthrough →
        (guardedInvoke pr respResp model input).1 = Except.ok X) := by
  have hsb : shouldBlockOf pr = false := by simp [shouldBlockOf, hpr]
  constructor
  · simp only [guardedInvoke, conditionOf, hsb, Bool.false_eq_true, if_false]
    split <;> split <;> rfl
  · intro X hX hrX
    have hsb2 : shouldBlockOf (respResp X) = false := by simp [shouldBlockOf, hrX]
    simp [guardedInvoke, conditionOf, hsb, hX, hsb2]

theorem C4_witness :
    (guardedInvoke ⟨GAction.passthrough, none⟩ (fun _ => ⟨GAction.passthrough, none⟩)
        (fun _ => InvokeOutcome.ok "X") "q").2 = ["q"]
    ∧ (guardedInvoke ⟨GAction.passthrough, none⟩ (fun _ => ⟨GAction.passthrough, none⟩)
        (fun _ => InvokeOutcome.ok "X") "q").1 = Except.ok "X" := by
  have h := C4_passthrough_invoke ⟨GAction.passthrough, none⟩
    (fun _ => ⟨GAction.passthrough, none⟩) (fun _ => InvokeOutcome.ok "X") "q" rfl
  exact ⟨h.1, h.2 "X" rfl rfl⟩

/-- Claim C6: for every single-turn call in which the underlying model
operation throws, an error flagged with the content-filter code is converted
into the fixed apology message, and every error not so flagged propagates
unchanged to the caller. -/
theorem C6_content_filter_handling (pr : GuardrailsResponse)
    (respResp : String → GuardrailsResponse) (model : String → InvokeOutcome)
    (input : String) (e : ModelError)
    (hpr : shouldBlockOf pr = false) (herr : model input = InvokeOutcome.err e) :
    (e.code = some "content_filter" →
      (guardedInvoke pr respResp model input).1 = Except.ok CONTENT_FILTER_APOLOGY)
    ∧ (¬e.code = some "content_filter" →
      (guardedInvoke pr respResp model input).1 = Except.error e) := by
  constructor
  · intro hc
    simp [guardedInvoke, conditionOf, hpr, herr, hc]
  · intro hc
    simp [guardedInvoke, conditionOf, hpr, herr, hc]

theorem C6_witness :
    (guardedInvoke ⟨GAction.passthrough, none⟩ (fun _ => ⟨GAction.passthrough, none⟩)
        (fun _ => InvokeOutcome.err ⟨some "content_filter", "filtered"⟩) "q").1
      = Except.ok CONTENT_FILTER_APOLOGY
    ∧ (guardedInvoke ⟨GAction.passthrough, none⟩ (fun _ => ⟨GAction.passthrough, none⟩)
        (fun _ => InvokeOutcome.err ⟨none, "boom"⟩) "q").1
      = Except.error ⟨none, "boom"⟩ := by
  refine ⟨(C6_content_filter_handling ⟨GAction.passthrough, none⟩
      (fun _ => ⟨GAction.passthrough, none⟩)
      (fun _ => InvokeOutcome.err ⟨some "content_filter", "filtered"⟩) "q"
      ⟨some "content_filter", "filtered"⟩ rfl rfl).1 rfl,
    (C6_content_filter_handling ⟨GAction.passthrough, none⟩
      (fun _ => ⟨GAction.passthrough, none⟩)
      (fun _ => InvokeOutcome.err ⟨none, "boom"⟩) "q"
      ⟨none, "boom"⟩ rfl rfl).2 (by decide)⟩

/-- Claim C10: whenever a blocking check's revised text is the empty string,
the substitute content is the fixed default override (prompt override on the
prompt path, response override on the single-turn response path and on both
streaming check sites), never the empty revised text; and a non-empty
service-provided revision is the content actually used. -/
theorem C10_empty_revision_uses_default (a : GAction)
    (ha : a = GAction.block ∨ a = GAction.modify ∨ a = GAction.rephrase) :
    (∀ (respResp : String → GuardrailsResponse) (model : String → InvokeOutcome)
        (input : String),
      (guardedInvoke ⟨a, some ""⟩ respResp model input).1 = Except.ok PROMPT_OVERRIDE)
    ∧ (∀ (pr : GuardrailsResponse) (respResp : String → GuardrailsResponse)
        (model : String → InvokeOutcome) (input X : String),
      shouldBlockOf pr = false → model input = InvokeOutcome.ok X →
      respResp X = ⟨a, some ""⟩ →
      (guardedInvoke pr respResp model input).1 = Except.ok RESPONSE_OVERRIDE)
    ∧ (∀ (B : Nat) (rc : String → CheckResult) (chunk : String) (rest : List String)
        (count : Nat) (acc : String),
      (count + 1) % B = 0 → rc (acc ++ chunk) = conditionOf ⟨a, some ""⟩ →
      (streamLoop B rc (chunk :: rest) count acc).emitted = [RESPONSE_OVERRIDE])
    ∧ (∀ (B : Nat) (rc : String → CheckResult) (count : Nat) (acc : String),
      ¬count = 0 → ¬count % B = 0 → rc acc = conditionOf ⟨a, some ""⟩ →
      (streamLoop B rc [] count acc).emitted = [RESPONSE_OVERRIDE])
    ∧ (∀ (pr : GuardrailsResponse) (respResp : String → GuardrailsResponse)
        (model : String → InvokeOutcome) (input X s : String),
      shouldBlockOf pr = false → model input = InvokeOutcome.ok X →
      respResp X = ⟨a, some s⟩ → ¬s = "" →
      (guardedInvoke pr respResp model input).1 = Except.ok s) := by
  have hsb : shouldBlockOf ⟨a, some ""⟩ = true := by
    rcases ha with h | h | h <;> simp [shouldBlockOf, h]
  refine ⟨?_, ?_, ?_, ?_, ?_⟩
  · intro respResp model input
    simp [guardedInvoke, conditionOf, hsb, jsOr]
  · intro pr respResp model input X hpr hX hrX
    simp [guardedInvoke, conditionOf, hpr, hX, hrX, hsb, jsOr]
  · intro B rc chunk rest count acc hb hrc
    simp [streamLoop, hb, hrc, conditionOf, hsb, jsOr]
  · intro B rc count acc hc0 hcB hrc
    simp [streamLoop, hc0, hcB, hrc, conditionOf, hsb, jsOr]
  · intro pr respResp model input X s hpr hX hrX hs
    have hsb2 : shouldBlockOf ⟨a, some s⟩ = true := by
      rcases ha with h | h | h <;> simp [shouldBlockOf, h]
    simp [guardedInvoke, conditionOf, hpr, hX, hrX, hsb2, jsOr, hs]

theorem C10_witness :
    (guardedInvoke ⟨GAction.modify, some ""⟩ (fun _ => ⟨GAction.passthrough, none⟩)
        (fun _ => InvokeOutcome.ok "X") "q").1 = Except.ok PROMPT_OVERRIDE
    ∧ (streamLoop 1 (fun _ => conditionOf ⟨GAction.modify, some ""⟩) ["a"] 0 "").emitted
        = [RESPONSE_OVERRIDE] := by
  have h := C10_empty_revision_uses_default GAction.modify (Or.inr (Or.inl rfl))
  exact ⟨h.1 (fun _ => ⟨GAction.passthrough, none⟩) (fun _ => InvokeOutcome.ok "X") "q",
    h.2.2.1 1 (fun _ => conditionOf ⟨GAction.modify, some ""⟩) "a" [] 0 "" rfl rfl⟩

/-- Claim C2: for every streaming call with positive batch size B over an
underlying stream of F fragments in which no response check blocks, the
guarded stream emits exactly the F underlying fragments unmodified and in
order, and performs exactly ⌈F/B⌉ response checks: one at each fragment
count that is a multiple of B, plus one tail check after stream end exactly
when F > 0 and F mod B is not 0. -/
theorem C2_stream_passthrough_counts (B : Nat) (hB : 0 < B)
    (pr : GuardrailsResponse) (hpr : shouldBlockOf pr = false)
    (respResp : String → GuardrailsResponse)
    (hnb : ∀ s, shouldBlockOf (respResp s) = false) (frags : List String) :
    (guardedStream B pr respResp frags).emitted = frags
    ∧ (guardedStream B pr respResp frags).checkInputs
        = (List.range (frags.length / B)).map
            (fun k => sconcat (frags.take ((k + 1) * B)))
          ++ (if ¬frags.length = 0 ∧ ¬frags.length % B = 0 then [sconcat frags] else [])
    ∧ (guardedStream B pr respResp frags).checkInputs.length
        = (frags.length + B - 1) / B := by
  have hrc : ∀ s, ((fun s => conditionOf (respResp s)) s).shouldBlock = false := by
    intro s
    simp [conditionOf, hnb]
  have hmain := streamLoop_noblock B _ hrc frags 0 ""
  have hcond : (conditionOf pr).shouldBlock = false := hpr
  have hck : (guardedStream B pr respResp frags).checkInputs
      = (List.range (frags.length / B)).map
          (fun k => sconcat (frags.take ((k + 1) * B)))
        ++ (if ¬frags.length = 0 ∧ ¬frags.length % B = 0 then [sconcat frags] else []) := by
    simp only [guardedStream, hcond, Bool.false_eq_true, if_false, hmain,
      Nat.zero_add, String.empty_append]
    rw [boundary_filterMap_eq_map B (fun m => sconcat (frags.take m)) frags.length]
  refine ⟨?_, hck, ?_⟩
  · simp only [guardedStream, hcond, Bool.false_eq_true, if_false, hmain]
  · rw [hck]
    simp only [List.length_append, List.length_map, List.length_range,
      apply_ite List.length, List.length_singleton, List.length_nil]
    exact checks_count_ceil B frags.length hB

theorem C2_witness :
    (guardedStream 2 ⟨GAction.passthrough, none⟩ (fun _ => ⟨GAction.passthrough, none⟩)
        ["a", "b", "c", "d", "e"]).emitted = ["a", "b", "c", "d", "e"]
    ∧ (guardedStream 2 ⟨GAction.passthrough, none⟩ (fun _ => ⟨GAction.passthrough, none⟩)
        ["a", "b", "c", "d", "e"]).checkInputs.length = 3 := by
  have h := C2_stream_passthrough_counts 2 (by decide) ⟨GAction.passthrough, none⟩ rfl
    (fun _ => ⟨GAction.passthrough, none⟩) (fun _ => rfl) ["a", "b", "c", "d", "e"]
  exact ⟨h.1, h.2.2.trans (by decide)⟩

/-- Claim C9: in a streaming call in which no response check blocks, every
response check performed at a batch boundary receives the entire text
accumulated from the first fragment onward (the concatenation of all
fragments up to and including the boundary fragment, not only the newest
batch), the tail check receives the full accumulated text, and the tail
check runs exactly when at least one fragment was seen and the final
fragment count is not an exact multiple of the batch size. -/
theorem C9_checks_on_full_accumulated_text (B : Nat)
    (pr : GuardrailsResponse) (hpr : shouldBlockOf pr = false)
    (respResp : String → GuardrailsResponse)
    (hnb : ∀ s, shouldBlockOf (respResp s) = false) (frags : List String) :
    (guardedStream B pr respResp frags).checkInputs
      = ((List.range frags.length).filterMap
          (fun i => if (i + 1) % B = 0 then some (sconcat (frags.take (i + 1))) else none))
        ++ (if ¬frags.length = 0 ∧ ¬frags.length % B = 0 then [sconcat frags] else [])
    ∧ ((guardedStream B pr respResp frags).tailChecked = true ↔
        ¬frags.length = 0 ∧ ¬frags.length % B = 0) := by
  have hrc : ∀ s, ((fun s => conditionOf (respResp s)) s).shouldBlock = false := by
    intro s
    simp [conditionOf, hnb]
  have hmain := streamLoop_noblock B _ hrc frags 0 ""
  have hcond : (conditionOf pr).shouldBlock = false := hpr
  constructor
  · simp only [guardedStream, hcond, Bool.false_eq_true, if_false, hmain,
      Nat.zero_add, String.empty_append]
  · simp only [guardedStream, hcond, Bool.false_eq_true, if_false, hmain,
      Nat.zero_add]
    split <;> simp_all

theorem C9_witness :
    (guardedStream 2 ⟨GAction.passthrough, none⟩ (fun _ => ⟨GAction.passthrough, none⟩)
        ["a", "b", "c", "d", "e"]).checkInputs = ["ab", "abcd", "abcde"]
    ∧ (guardedStream 2 ⟨GAction.passthrough, none⟩ (fun _ => ⟨GAction.passthrough, none⟩)
        ["a", "b", "c", "d", "e"]).tailChecked = true := by
  have h := C9_checks_on_full_accumulated_text 2 ⟨GAction.passthrough, none⟩ rfl
    (fun _ => ⟨GAction.passthrough, none⟩) (fun _ => rfl) ["a", "b", "c", "d", "e"]
  exact ⟨h.1.trans (by decide), h.2.mpr (by decide)⟩

/-- Claim C3 fails as stated: with batch size 2 and a response check that
blocks at the first boundary (fragment count 2 = 1·B), the guarded stream
emits only 1 = 2 − 1 original fragments before the override chunk — the
fragment that completed the batch is consumed but never emitted — not the
2 = k·B originals the claim asserts. -/
theorem C3_counterexample :
    (guardedStream 2 ⟨GAction.passthrough, none⟩ (fun _ => ⟨GAction.block, none⟩)
        ["a", "b", "c"]).emitted = ["a", RESPONSE_OVERRIDE]
    ∧ (guardedStream 2 ⟨GAction.passthrough, none⟩ (fun _ => ⟨GAction.block, none⟩)
        ["a", "b", "c"]).consumed = 2
    ∧ ¬(guardedStream 2 ⟨GAction.passthrough, none⟩ (fun _ => ⟨GAction.block, none⟩)
          ["a", "b", "c"]).emitted
        = ["a", "b"] ++ [RESPONSE_OVERRIDE] := by
  refine ⟨rfl, rfl, by decide⟩

/-- Claim C3 (amended): for every streaming call with positive batch size B,
if the response checks at the earlier boundaries pass and the check performed
at fragment count k·B blocks, the guarded stream emits exactly k·B − 1
original fragments (the fragment completing the k-th batch is consumed and
accumulated but not emitted) followed by exactly one override chunk, ends
there, consumes exactly k·B fragments from the underlying stream, and runs
no tail check. -/
theorem C3_block_at_boundary (B k : Nat) (hB : 0 < B) (hk : 0 < k)
    (pr : GuardrailsResponse) (hpr : shouldBlockOf pr = false)
    (respResp : String → GuardrailsResponse) (frags : List String)
    (hlen : k * B ≤ frags.length)
    (hpass : ∀ j, 0 < j → j < k →
      shouldBlockOf (respResp (sconcat (frags.take (j * B)))) = false)
    (hblock : shouldBlockOf (respResp (sconcat (frags.take (k * B)))) = true) :
    (guardedStream B pr respResp frags).emitted
      = frags.take (k * B - 1)
        ++ [jsOr (respResp (sconcat (frags.take (k * B)))).revised_response
              RESPONSE_OVERRIDE]
    ∧ (guardedStream B pr respResp frags).consumed = k * B
    ∧ (guardedStream B pr respResp frags).tailChecked = false := by
  have hcond : (conditionOf pr).shouldBlock = false := hpr
  have hKpos : 0 < k * B := Nat.mul_pos hk hB
  have hKmod : (k * B) % B = 0 := Nat.mul_mod_left k B
  have hpassN : ∀ n, 0 < n → n < k * B → n % B = 0 →
      ((fun s => conditionOf (respResp s))
        ("" ++ sconcat (frags.take (n - 0)))).shouldBlock = false := by
    intro n hn0 hnK hnB
    have hdvd : B ∣ n := Nat.dvd_iff_mod_eq_zero.mpr hnB
    have hmul : n / B * B = n := Nat.div_mul_cancel hdvd
    have hj0 : 0 < n / B := by
      rcases Nat.eq_zero_or_pos (n / B) with h0 | h
      · rw [h0, Nat.zero_mul] at hmul
        omega
      · exact h
    have hjk : n / B < k := by
      by_contra hcontra
      have : k * B ≤ n / B * B := Nat.mul_le_mul_right B (by omega)
      omega
    have h := hpass (n / B) hj0 hjk
    rw [hmul] at h
    simpa [conditionOf] using h
  have hblockN : ((fun s => conditionOf (respResp s))
      ("" ++ sconcat (frags.take (k * B - 0)))).shouldBlock = true := by
    simpa [conditionOf] using hblock
  obtain ⟨he, hc, ht⟩ := streamLoop_blockAt B (fun s => conditionOf (respResp s))
    (k * B) frags 0 "" hKpos (by omega) hKmod hpassN hblockN
  refine ⟨?_, ?_, ?_⟩
  · simp only [guardedStream, hcond, Bool.false_eq_true, if_false, he]
    simp [conditionOf]
  · simp only [guardedStream, hcond, Bool.false_eq_true, if_false, hc]
    omega
  · simp only [guardedStream, hcond, Bool.false_eq_true, if_false, ht]

theorem C3_witness :
    (guardedStream 2 ⟨GAction.passthrough, none⟩
        (fun s => if s = "ab" then ⟨GAction.block, some "X"⟩ else ⟨GAction.passthrough, none⟩)
        ["a", "b", "c"]).emitted = ["a", "X"]
    ∧ (guardedStream 2 ⟨GAction.passthrough, none⟩
        (fun s => if s = "ab" then ⟨GAction.block, some "X"⟩ else ⟨GAction.passthrough, none⟩)
        ["a", "b", "c"]).consumed = 2 := by
  have h := C3_block_at_boundary 2 1 (by decide) (by decide) ⟨GAction.passthrough, none⟩ rfl
    (fun s => if s = "ab" then ⟨GAction.block, some "X"⟩ else ⟨GAction.passthrough, none⟩)
    ["a", "b", "c"] (by decide) (by intro j hj hjk; omega) (by decide)
  exact ⟨h.1.trans (by decide), h.2.1⟩

theorem actionRecognized_isSome (o : Option Json) :
    actionRecognized o = (parseActionField o).isSome := by
  cases o with
  | none => rfl
  | some j =>
    cases j with
    | str s =>
      simp only [actionRecognized, parseActionField]
      split_ifs <;> rfl
    | null => rfl
    | bool b => rfl
    | num n => rfl
    | arr l => rfl
    | obj f => rfl

theorem revisedStringOrNull_isSome (o : Option Json) :
    revisedStringOrNull o = (parseRevisedField o).isSome := by
  cases o with
  | none => rfl
  | some j => cases j <;> rfl

/-- Claim C5 fails as stated: a success reply whose body carries a
recognized action but omits revised_response entirely satisfies the claim's
acceptance condition (action recognized, revised_response string-or-absent),
yet the schema parse rejects it: `z.string().nullable()` requires the field
to be present (string or null). -/
theorem C5_counterexample :
    actionRecognized (jFieldOf (Json.obj [("action", Json.str "block")]) "action") = true
    ∧ revisedStringOrAbsent
        (jFieldOf (Json.obj [("action", Json.str "block")]) "revised_response") = true
    ∧ (GuardrailsResponseSchema_parse (Json.obj [("action", Json.str "block")])).isOk
        = false := by
  refine ⟨by decide, by decide, by decide⟩

/-- Claim C5 (amended): on a success reply, the schema parse succeeds exactly
when the action field is one of the four recognized values and the
revised_response field is present and is a string or null (an absent
revised_response is rejected); all other fields, recognized or not, are
ignored: acceptance depends only on those two fields. -/
theorem C5_schema_accepts_iff (body : Json) :
    (GuardrailsResponseSchema_parse body).isOk
      = (actionRecognized (jFieldOf body "action")
         && revisedStringOrNull (jFieldOf body "revised_response")) := by
  cases body with
  | obj fields =>
    simp only [GuardrailsResponseSchema_parse, jFieldOf, actionRecognized_isSome,
      revisedStringOrNull_isSome]
    cases h1 : parseActionField (List.lookup "action" fields) <;>
      cases h2 : parseRevisedField (List.lookup "revised_response" fields) <;>
      rfl
  | null => rfl
  | bool b => rfl
  | num n => rfl
  | str s => rfl
  | arr l => rfl

/-- Claim C7: a validation request answered with a non-success HTTP status
fails with a transport error carrying the status code and status text, the
fetch is performed exactly once (never retried by this layer), and the
failure is an exception value, never the normal return that a block decision
would be. -/
theorem C7_transport_failure (replies : Nat → HttpReply)
    (hfail : (replies 0).ok = false) :
    (validateWithGuardrailsCounted replies 0).1
        = Except.error (ValidationError.transport (replies 0).status (replies 0).statusText)
    ∧ (validateWithGuardrailsCounted replies 0).2 = 1
    ∧ ∀ g : GuardrailsResponse,
        ¬(validateWithGuardrailsCounted replies 0).1 = Except.ok g := by
  refine ⟨?_, rfl, ?_⟩
  · simp [validateWithGuardrailsCounted, validateWithGuardrails, hfail]
  · intro g
    simp [validateWithGuardrailsCounted, validateWithGuardrails, hfail]

theorem C7_witness :
    (validateWithGuardrailsCounted
        (fun _ => ⟨false, 503, "Service Unavailable", Json.null⟩) 0).1
      = Except.error (ValidationError.transport 503 "Service Unavailable")
    ∧ (validateWithGuardrailsCounted
        (fun _ => ⟨false, 503, "Service Unavailable", Json.null⟩) 0).2 = 1 := by
  have h := C7_transport_failure
    (fun _ => ⟨false, 503, "Service Unavailable", Json.null⟩) rfl
  exact ⟨h.1, h.2.1⟩

/-- Claim C8: the guarded model's tool-binding and reconfiguration
operations invoke the original operation on the wrapped model to obtain a
new underlying instance, and return that instance re-wrapped through the
same interception construction with the wrapping model's resolved
configuration — the same project identifier and API key, and the resolved
chunk batch size and base URL (defaults applied) — so every derivative model
is equally guarded. -/
theorem C8_derivatives_rewrapped (service : SReq → GuardrailsResponse)
    (cfg : AporiaGuardrailsConfig) (m : ChatModel) (args : List String) (c : String) :
    (withGuardrails service cfg m).bindToolsG args
      = withGuardrails service
          ⟨cfg.projectId, cfg.apiKey,
           some (cfg.chunkBatchSize.getD DEFAULT_CHUNK_BATCH_SIZE),
           some (cfg.baseUrl.getD DEFAULT_BASE_URL)⟩
          (m.bindToolsF args)
    ∧ (withGuardrails service cfg m).withConfigG c
      = withGuardrails service
          ⟨cfg.projectId, cfg.apiKey,
           some (cfg.chunkBatchSize.getD DEFAULT_CHUNK_BATCH_SIZE),
           some (cfg.baseUrl.getD DEFAULT_BASE_URL)⟩
          (m.withConfigF c) := by
  cases m with
  | mk inv str bt wc => exact ⟨rfl, rfl⟩
